import Mathlib

/-!
Formal model of the oas-sandbox stateful OpenAPI mock server.

This development embeds the data model and the operations of the server
(template engine, state store backends, router, document loader, request
pipeline) as executable Lean definitions translated from the TypeScript
source, and proves properties about them.

Conventions used throughout:
- JS values are modelled by the tagged sum `Value` (JSON-shaped data).
- JS `Map` / object-literal key ordering is modelled by association lists
  with in-place overwrite (`setKey`), matching JS insertion-order
  semantics.
- Wall-clock time is an explicit `Nat` parameter (milliseconds).
- External collaborators (the `uuid` package's `uuidv4`, the `RegExp`
  engine) are modelled as explicit parameters: an entropy stream for
  `uuidv4`, a test callback for regular expressions.
-/

/-- Values is the JSON-shaped data carried by the sandbox: the TypeScript
source treats state values, bodies and template results as untyped JSON
trees (`any`). Numbers are modelled as integers (all numerics appearing in
the verified operations are integral). -/
inductive Value where
  | vNull : Value
  | vBool : Bool → Value
  | vNum : Int → Value
  | vStr : String → Value
  | vArr : List Value → Value
  | vObj : List (String × Value) → Value

/-- Association-list update with JS semantics: assigning to an existing key
overwrites its value in place (keeping insertion order), assigning a new
key appends it. This is the behaviour of both `Map.prototype.set` and
object property assignment in the source. -/
def setKey {α : Type} (l : List (String × α)) (k : String) (v : α) :
    List (String × α) :=
  match l with
  | [] => [(k, v)]
  | (k2, v2) :: rest =>
      if k2 = k then (k2, v) :: rest else (k2, v2) :: setKey rest k v

/-- Association-list deletion, the model of `Map.prototype.delete`. -/
def delKey {α : Type} (l : List (String × α)) (k : String) :
    List (String × α) :=
  match l with
  | [] => []
  | (k2, v2) :: rest =>
      if k2 = k then rest else (k2, v2) :: delKey rest k

/-- Association-list lookup, the model of `Map.prototype.get` and of JS
property access on plain objects. -/
def getKey {α : Type} (l : List (String × α)) (k : String) : Option α :=
  match l with
  | [] => none
  | (k2, v2) :: rest => if k2 = k then some v2 else getKey rest k



/-- Keys of an association list, used to state disjointness. -/
def keysOf {α : Type} (l : List (String × α)) : List String :=
  l.map Prod.fst


/-- Object spread `\x7b ...existing, ...incoming \x7d` from the stores:
fields of `incoming` are assigned one by one over `existing`. -/
def objSpread (existing incoming : List (String × Value)) :
    List (String × Value) :=
  incoming.foldl (fun acc kv => setKey acc kv.1 kv.2) existing


/-- Deep-merge used by `MemoryStore.patch` and `FileStore.patch`: shallow
key-wise override when both sides are non-array objects, concatenation
(existing first) when both are arrays, replacement by the incoming value
otherwise. Translated from src/stores/file.ts lines 174-188 (the memory
backend has the same branches). -/
def mergeValue (existing incoming : Value) : Value :=
  match existing, incoming with
  | Value.vObj a, Value.vObj b => Value.vObj (objSpread a b)
  | Value.vArr a, Value.vArr b => Value.vArr (a ++ b)
  | _, _ => incoming

/-! ## In-memory state store (src/stores/memory.ts)

The TTL wheel sweeper only deletes entries that are already expired, and
every read performs a lazy expiry check, so the sweeper is unobservable
through the store API verified here and is not modelled. JS falsy checks
on numbers (`expiresAt || undefined`, `effectiveTtl ? ... : undefined`)
are modelled exactly: a computed TTL of `0` yields no expiry. -/

/-- Entry of the in-memory backend: serialized value plus optional
absolute expiry timestamp in milliseconds. -/
structure MEntry where
  value : Value
  expiresAt : Option Nat

/-- State of a `MemoryStore`: the JS `Map` (insertion-ordered association
list) plus the constructor options `maxSize` (default 10000) and
`defaultTtl` (default absent). -/
structure MemoryStore where
  cache : List (String × MEntry)
  maxSize : Nat
  defaultTtl : Option Nat

namespace MemoryStore

/-- JSON-serializability roundtrip `JSON.parse(JSON.stringify(v))`, the
identity on the JSON-shaped `Value` model. -/
def serialize (v : Value) : Value := v

/-- Read with lazy expiry check (`get`): an entry whose `expiresAt` has
passed is deleted and reported absent. Time `t` is `Date.now()`. -/
def get (s : MemoryStore) (t : Nat) (k : String) :
    Option Value × MemoryStore :=
  match getKey s.cache k with
  | none => (none, s)
  | some e =>
      match e.expiresAt with
      | some exp =>
          if exp ≤ t then (none, { s with cache := delKey s.cache k })
          else (some e.value, s)
      | none => (some e.value, s)

/-- Eviction of the oldest-inserted key when at capacity
(`evictOldest`: delete the first key of the `Map`). -/
def evictOldest (s : MemoryStore) : MemoryStore :=
  match s.cache with
  | [] => s
  | (k, _) :: _ => { s with cache := delKey s.cache k }

/-- Write (`set`): evict when at capacity and inserting a new key; the
effective TTL is `ttl ?? defaultTtl`; a truthy effective TTL sets
`expiresAt = now + ttl * 1000`, otherwise no expiry (a TTL of `0` is
falsy in JS and yields no expiry). -/
def set (s : MemoryStore) (t : Nat) (k : String) (v : Value)
    (ttl : Option Nat) : MemoryStore :=
  let s1 :=
    if s.maxSize ≤ s.cache.length ∧ (getKey s.cache k).isNone then
      evictOldest s
    else s
  let effectiveTtl := match ttl with | some n => some n | none => s.defaultTtl
  let expiresAt : Option Nat :=
    match effectiveTtl with
    | some n => if n = 0 then none else some (t + n * 1000)
    | none => none
  { s1 with cache := setKey s1.cache k ⟨serialize v, expiresAt⟩ }

/-- Delete (`del`). -/
def del (s : MemoryStore) (k : String) : MemoryStore :=
  { s with cache := delKey s.cache k }

/-- Remaining TTL in whole seconds recomputed by `increment` and `patch`:
`Math.max(0, Math.floor((expiresAt - now) / 1000))`, `undefined` when the
entry has no expiry. Subtraction is truncated at zero exactly as
`Math.max(0, ...)` does for an already-passed expiry. -/
def remainingTtl (s : MemoryStore) (t : Nat) (k : String) : Option Nat :=
  match getKey s.cache k with
  | some e =>
      match e.expiresAt with
      | some exp => some ((exp - t) / 1000)
      | none => none
  | none => none

/-- Atomic increment (`increment`): absent or non-numeric prior values
count as 0; the entry is re-`set` with the recomputed whole-second TTL. -/
def increment (s : MemoryStore) (t : Nat) (k : String) (by2 : Int) :
    Int × MemoryStore :=
  let (current, s1) := get s t k
  let currentValue : Int :=
    match current with
    | some (Value.vNum n) => n
    | _ => 0
  let newValue := currentValue + by2
  (newValue, set s1 t k (Value.vNum newValue) (remainingTtl s1 t k))

/-- Deep-merge patch (`patch`): read the existing value (with lazy expiry),
merge by `mergeValue`, and re-`set` with the recomputed whole-second
TTL. -/
def patch (s : MemoryStore) (t : Nat) (k : String) (v : Value) :
    MemoryStore :=
  let (existing, s1) := get s t k
  match existing with
  | none => set s1 t k v none
  | some ex => set s1 t k (mergeValue ex v) (remainingTtl s1 t k)

end MemoryStore

/-! ## Append-log file store (src/stores/file.ts)

The on-disk state is modelled explicitly: `log` is the content of the
append-only NDJSON log (one record per mutation) and `snapshot` the
content of the snapshot file. `appendLog` is the only operation that
writes the log; snapshot/compaction runs only on the periodic timer and
on shutdown, never during `get`/`set`/`patch`/`del`/`increment`. -/

/-- Entry of the file backend (`FileEntry`). -/
structure FEntry where
  value : Value
  expiresAt : Option Nat
  createdAt : Nat
  updatedAt : Nat

/-- Operations recorded in the append log. -/
inductive LogOp where
  | set : LogOp
  | del : LogOp
  | increment : LogOp
  | patch : LogOp

/-- Log record (`LogEntry`): `\x7bts, op, key, value?, ttl?\x7d`. -/
structure LogRec where
  timestamp : Nat
  operation : LogOp
  key : String
  value : Option Value
  ttl : Option Nat

/-- State of a `FileStore`: the in-process cache plus the two on-disk
files. -/
structure FileStore where
  cache : List (String × FEntry)
  log : List LogRec
  snapshot : List (String × FEntry)

namespace FileStore

/-- JSON-serializability roundtrip, identity on the `Value` model. -/
def serialize (v : Value) : Value := v

/-- Append one record to the log file followed by a durable sync
(`appendLog`). -/
def appendLog (s : FileStore) (r : LogRec) : FileStore :=
  { s with log := s.log ++ [r] }

/-- Read (`get`): on a lazily detected expiry the entry is deleted from
the cache AND a `del` record is appended to the log; otherwise nothing is
written. -/
def get (s : FileStore) (t : Nat) (k : String) : Option Value × FileStore :=
  match getKey s.cache k with
  | none => (none, s)
  | some e =>
      match e.expiresAt with
      | some exp =>
          if exp ≤ t then
            (none, appendLog { s with cache := delKey s.cache k }
              ⟨t, LogOp.del, k, none, none⟩)
          else (some e.value, s)
      | none => (some e.value, s)

/-- Write (`set`): `expiresAt = now + ttl * 1000` for a truthy `ttl`
(0 is falsy), `createdAt` preserved from any prior entry (the JS
`?.createdAt || now` is passthrough here: stored timestamps are positive
`Date.now()` values), and a `set` record appended to the log. -/
def set (s : FileStore) (t : Nat) (k : String) (v : Value)
    (ttl : Option Nat) : FileStore :=
  let expiresAt : Option Nat :=
    match ttl with
    | some n => if n = 0 then none else some (t + n * 1000)
    | none => none
  let createdAt :=
    match getKey s.cache k with
    | some old => old.createdAt
    | none => t
  let entry : FEntry := ⟨serialize v, expiresAt, createdAt, t⟩
  appendLog { s with cache := setKey s.cache k entry }
    ⟨t, LogOp.set, k, some entry.value,
      match ttl with | some n => if n = 0 then none else some n | none => none⟩

/-- Delete (`del`): remove from the cache and append a `del` record. -/
def del (s : FileStore) (t : Nat) (k : String) : FileStore :=
  appendLog { s with cache := delKey s.cache k } ⟨t, LogOp.del, k, none, none⟩

/-- Deep-merge patch (`patch`): read the existing value (with lazy
expiry), merge by `mergeValue`, store an entry that keeps the prior
`expiresAt` and `createdAt` unchanged, and append a `patch` record
carrying the incoming value. -/
def patch (s : FileStore) (t : Nat) (k : String) (v : Value) : FileStore :=
  let (existing, s1) := get s t k
  let merged :=
    match existing with
    | none => v
    | some ex => mergeValue ex v
  let expiresAt :=
    match getKey s1.cache k with
    | some old => old.expiresAt
    | none => none
  let createdAt :=
    match getKey s1.cache k with
    | some old => old.createdAt
    | none => t
  let entry : FEntry := ⟨serialize merged, expiresAt, createdAt, t⟩
  appendLog { s1 with cache := setKey s1.cache k entry }
    ⟨t, LogOp.patch, k, some (serialize v), none⟩

end FileStore

/-! ## Router (src/core/router.ts)

Query parsing and scenario selection. Percent-decoding inside
`URLSearchParams` is not modelled: queries enter as the ordered list of
(name, value) pairs that `url.searchParams.entries()` yields; a helper
splits a raw query string on `&` and first `=` for concrete instances.
The `RegExp` engine behind `$regex:` conditions is an external
collaborator and is passed in as a test callback `rt`. -/

namespace Router

/-- Split one `name=value` part of a query string at the first `=`
(no `=` yields an empty value, as `URLSearchParams` does). -/
def splitPair (part : String) : String × String :=
  match part.splitOn "=" with
  | [] => (part, "")
  | name :: rest => (name, String.intercalate "=" rest)

/-- Ordered (name, value) pairs of a raw query string, the model of
`url.searchParams.entries()`; empty parts are skipped. -/
def queryPairs (q : String) : List (String × String) :=
  ((q.splitOn "&").filter (fun part => part ≠ "")).map splitPair

/-- Build the parsed query object of `parseRequest`: the loop
`for ([key, value] of url.searchParams.entries()) query[key] = value`
assigns every pair in order, so a later occurrence of a key overwrites an
earlier one. -/
def parseQuery (pairs : List (String × String)) : List (String × String) :=
  pairs.foldl (fun acc p => setKey acc p.1 p.2) []

/-- Value of the last occurrence of key `k` among the ordered query
pairs, `none` when the key never occurs. -/
def lastVal (pairs : List (String × String)) (k : String) : Option String :=
  match pairs with
  | [] => none
  | p :: rest =>
      match lastVal rest k with
      | some v => some v
      | none => if p.1 = k then some p.2 else none

/-- Value of the first occurrence of key `k` among the ordered query
pairs (what the specification asserts the parsed query binds). -/
def firstVal (pairs : List (String × String)) (k : String) : Option String :=
  match pairs with
  | [] => none
  | p :: rest => if p.1 = k then some p.2 else firstVal rest k

/-- Operation identity as seen by scenario selectors. -/
structure OpKey where
  operationId : String
  method : String
  path : String

/-- Selector of a rule (`when` clause): an `operationId`, or a
method+path pair, with optional query/header conditions and a negate
flag. An absent field is `none` (JS falsy selector fields are treated as
absent). -/
structure WhenClause where
  operationId : Option String
  method : Option String
  path : Option String
  matchQuery : Option (List (String × String))
  matchHeaders : Option (List (String × String))
  negate : Bool

/-- Condition check (`valueMatches`): an absent actual value never
matches; an expected value of the form `$regex:<pattern>` is tested by
the regular-expression engine `rt` on the trimmed pattern; anything else
is an exact string comparison. -/
def valueMatches (rt : String → String → Bool) (actual : Option String)
    (expected : String) : Bool :=
  match actual with
  | none => false
  | some a =>
      if expected.startsWith "$regex:" then rt ((expected.drop 7).trim) a
      else a == expected

/-- Operation part of the selector: `some m` when a valid selector
evaluated to `m`, `none` for an invalid selector (neither `operationId`
nor both `method` and `path` present), which `scenarioMatches` rejects
outright. -/
def opSelector (w : WhenClause) (op : OpKey) : Option Bool :=
  match w.operationId with
  | some wid => some (wid == op.operationId)
  | none =>
      match w.method, w.path with
      | some m, some p => some (m.toUpper == op.method && p == op.path)
      | _, _ => none

/-- Combined query/header conditions of the `when.match` block: every
listed pair must match (the code's loop-with-break over `match.query`
then, only while still matching, over `match.headers`, is observationally
the conjunction of all individual checks; header condition names are
lower-cased before lookup). -/
def condsMatch (rt : String → String → Bool) (w : WhenClause)
    (query headers : List (String × String)) : Bool :=
  ((w.matchQuery.getD []).all fun p => valueMatches rt (getKey query p.1) p.2) &&
  ((w.matchHeaders.getD []).all fun p =>
    valueMatches rt (getKey headers p.1.toLower) p.2)

/-- Scenario selection (`scenarioMatches`): evaluate the operation part
of the selector first and return `false` immediately when it fails (or is
invalid) — this early return happens BEFORE the negate flag is consulted;
only when the operation part matched are the query/header conditions
evaluated and, at the end, flipped by `negate`. -/
def scenarioMatches (rt : String → String → Bool) (w : WhenClause)
    (op : OpKey) (query headers : List (String × String)) : Bool :=
  match opSelector w op with
  | none => false
  | some m =>
      if !m then false
      else
        let final := condsMatch rt w query headers
        if w.negate then !final else final

/-- Outcome the specification ascribes to a negated rule: the negate flag
flips the ENTIRE match outcome, i.e. selection happens exactly when the
un-negated combination of operation selector and conditions fails.
Modelled from the spec for comparison with `scenarioMatches`
(an invalid selector is taken as not matching). -/
def specNegatedOutcome (rt : String → String → Bool) (w : WhenClause)
    (op : OpKey) (query headers : List (String × String)) : Bool :=
  let plain := (opSelector w op).getD false && condsMatch rt w query headers
  if w.negate then !plain else plain

end Router

/-! ## Document loader (src/core/loader.ts) -/

/-- Parameter descriptor as carried in the operation table (name,
location, required flag). -/
structure Parameter where
  name : String
  location : String
  required : Bool
deriving DecidableEq

/-- Item of an OpenAPI `parameters` array: either a `$ref` or an inline
parameter object. -/
inductive ParamOrRef where
  | ref : String → ParamOrRef
  | param : Parameter → ParamOrRef

namespace OpenAPILoader

/-- Keep only inline parameter objects, dropping `$ref` entries, as the
`typeof param === "object" && !("$ref" in param)` filter does. -/
def inlineParams (l : List ParamOrRef) : List Parameter :=
  l.filterMap fun pr =>
    match pr with
    | ParamOrRef.ref _ => none
    | ParamOrRef.param p => some p

/-- Parameter collection of `extractOperations`: push the path-level
parameters, then push the operation-level parameters — a plain
concatenation with no deduplication by name. -/
def collectParameters (pathLevel opLevel : List ParamOrRef) :
    List Parameter :=
  inlineParams pathLevel ++ inlineParams opLevel

/-- Number of descriptors with a given name in a parameter list. -/
def countName (l : List Parameter) (n : String) : Nat :=
  (l.filter fun p => p.name == n).length

end OpenAPILoader

/-! ## Request pipeline session handling (src/sandbox.ts) -/

/-- Incoming request as seen by `extractSessionId`: lower-cased header
map and parsed cookie map. -/
structure SandboxRequest where
  headers : List (String × String)
  cookies : List (String × String)

namespace Sandbox

/-- Truthiness-aware lookup: `if (x)` on a looked-up string is false both
when the key is absent and when the value is the empty string. -/
def lookupTruthy (m : List (String × String)) (k : String) : Option String :=
  match getKey m k with
  | some s => if s = "" then none else some s
  | none => none

/-- Session extraction (`extractSessionId`), resolution order: header
`x-sandbox-session`, cookie `sandbox_session`, raw `authorization` header,
then the sentinel `GLOBAL`. -/
def extractSessionId (req : SandboxRequest) : String :=
  match lookupTruthy req.headers "x-sandbox-session" with
  | some s => s
  | none =>
      match lookupTruthy req.cookies "sandbox_session" with
      | some s => s
      | none =>
          match lookupTruthy req.headers "authorization" with
          | some s => s
          | none => "GLOBAL"

/-- Scope tag of a state action. -/
inductive Scope where
  | session : Scope
  | global : Scope
deriving DecidableEq

/-- Default scope resolution of the state API closures:
`options?.scope || "session"`. -/
def resolveScope (o : Option Scope) : Scope :=
  o.getD Scope.session

/-- Namespace injection (`buildStateKey`). -/
def buildStateKey (key sessionId : String) (scope : Scope) : String :=
  match scope with
  | Scope.global => "global:" ++ key
  | Scope.session => "session:" ++ sessionId ++ ":" ++ key

/-- Request that explicitly supplies the session identifier `GLOBAL`
through one of the three credential channels, in resolution order. -/
def suppliesGlobal (req : SandboxRequest) : Prop :=
  lookupTruthy req.headers "x-sandbox-session" = some "GLOBAL" ∨
  (lookupTruthy req.headers "x-sandbox-session" = none ∧
    lookupTruthy req.cookies "sandbox_session" = some "GLOBAL") ∨
  (lookupTruthy req.headers "x-sandbox-session" = none ∧
    lookupTruthy req.cookies "sandbox_session" = none ∧
    lookupTruthy req.headers "authorization" = some "GLOBAL")

/-- Request carrying no session credentials at all. -/
def noCredentials (req : SandboxRequest) : Prop :=
  lookupTruthy req.headers "x-sandbox-session" = none ∧
  lookupTruthy req.cookies "sandbox_session" = none ∧
  lookupTruthy req.headers "authorization" = none

end Sandbox

/-! ## Template engine (src/core/template.ts)

The placeholder regex `TEMPLATE_REGEX` matches `\x7b\x7b`, optional
whitespace, a greedy group of non-brace characters or single-brace runs
`\x7b...\x7d` (closed by the first following close brace), optional
whitespace, then `\x7d\x7d`. The scanner below reproduces the JS engine's
leftmost-match, greedy-with-backtracking semantics for exactly this
pattern: at a `\x7b\x7b` the group's maximal token parse is deterministic
(alternatives never overlap), and backtracking retries the token
boundaries from the longest one down, skipping trailing whitespace before
requiring the two close braces. Recursion is by an explicit fuel that
strictly exceeds any possible consumption, so the functions compute by
reduction. The sandboxed `Function`-based evaluation of an expression
string is an external effect and is passed in as a callback `ev`; its
result `Except.ok none` plays the role of JS `undefined` and
`Except.ok (some Value.vNull)` of JS `null`. -/

namespace TemplateEngine

/-- Open-brace character. -/
def openBrace : Char := Char.ofNat 123

/-- Close-brace character. -/
def closeBrace : Char := Char.ofNat 125

/-- Whitespace class of the regex `\s` (ASCII subset; the claims exercise
only ASCII whitespace). -/
def isJsWs (c : Char) : Bool := c.isWhitespace

/-- Length of the maximal leading whitespace run. -/
def wsCount : List Char → Nat
  | [] => 0
  | c :: cs => if isJsWs c then wsCount cs + 1 else 0

/-- Index of the first close brace, if any. -/
def firstClose : List Char → Option Nat
  | [] => none
  | c :: cs =>
      if c = closeBrace then some 0 else (firstClose cs).map (fun i => i + 1)

/-- Token boundaries of the maximal parse of the greedy group
`(?:[^\x7b\x7d]|\x7b[^\x7d]*\x7d)*`: each non-brace character is one
token, each `\x7b...first \x7d` run is one token, and the parse stops at
a close brace or at an open brace with no later close brace. Returned
offsets are increasing and start at 0. -/
def starBoundsF : Nat → List Char → List Nat
  | 0, _ => [0]
  | Nat.succ f, l =>
      match l with
      | [] => [0]
      | c :: cs =>
          if c = closeBrace then [0]
          else if c = openBrace then
            match firstClose cs with
            | none => [0]
            | some i =>
                0 :: (starBoundsF f (cs.drop (i + 1))).map (fun b => b + (i + 2))
          else 0 :: (starBoundsF f cs).map (fun b => b + 1)

/-- Token boundaries with sufficient fuel. -/
def starBounds (l : List Char) : List Nat := starBoundsF l.length l

/-- Backtracking search over the group's token boundaries, longest first:
from boundary `b`, skip trailing whitespace and require two close braces;
on success return the total length consumed inside `body` and the
captured group `body.take b`. -/
def tryBounds (body : List Char) : List Nat → Option (Nat × List Char)
  | [] => none
  | b :: bs =>
      let after := body.drop b
      let e := wsCount after
      match after.drop e with
      | c1 :: c2 :: _ =>
          if c1 = closeBrace ∧ c2 = closeBrace then
            some (b + e + 2, body.take b)
          else tryBounds body bs
      | _ => tryBounds body bs

/-- Attempt to match the placeholder regex at the head of `l`: two open
braces, maximal leading whitespace (absorbed by the leading `\s*`, hence
excluded from the capture), then the greedy group with backtracking. On
success, the total number of characters matched and the captured
expression. -/
def tryMatch (l : List Char) : Option (Nat × List Char) :=
  match l with
  | c1 :: c2 :: t =>
      if c1 = openBrace ∧ c2 = openBrace then
        let w := wsCount t
        let body := t.drop w
        (tryBounds body (starBounds body).reverse).map
          (fun p => (2 + w + p.1, p.2))
      else none
  | _ => none

/-- Segment of a template: a literal character, or a matched placeholder
carrying its full source text and its captured expression. -/
inductive Seg where
  | lit : Char → Seg
  | ph : List Char → List Char → Seg

/-- Source text of a segment: placeholders contribute their full original
text. -/
def segSource : Seg → List Char
  | Seg.lit c => [c]
  | Seg.ph full _ => full

/-- Concatenated source text of a segment list. -/
def segsSource : List Seg → List Char
  | [] => []
  | s :: rest => segSource s ++ segsSource rest

/-- Decomposition of a template into literal runs and placeholder
matches, scanning left to right exactly as a global `String.replace`
does: try the regex at each position, and after a match continue right
after it. When fuel runs out the remainder is emitted literally (the
public entry point supplies more fuel than any input can consume). -/
def parseTF : Nat → List Char → List Seg
  | 0, l => l.map Seg.lit
  | Nat.succ f, l =>
      match l with
      | [] => []
      | c :: cs =>
          match tryMatch (c :: cs) with
          | some (n, inner) =>
              Seg.ph ((c :: cs).take n) inner :: parseTF f ((c :: cs).drop n)
          | none => Seg.lit c :: parseTF f cs

/-- Template decomposition with sufficient fuel. -/
def parseTemplate (l : List Char) : List Seg := parseTF (l.length + 1) l

/-- JS `String.prototype.trim` on the captured expression. -/
def trimChars (l : List Char) : List Char :=
  ((l.dropWhile isJsWs).reverse.dropWhile isJsWs).reverse

/-- JS `String(x)` string conversion for the JSON-shaped values: arrays
join their elements with commas (null elements becoming empty), plain
objects display as [object Object]. -/
def jsToString (v : Value) : String :=
  match v with
  | Value.vNull => "null"
  | Value.vBool b => if b then "true" else "false"
  | Value.vNum n => toString n
  | Value.vStr s => s
  | Value.vArr xs =>
      String.intercalate ","
        (xs.attach.map fun w =>
          match w with
          | ⟨Value.vNull, _⟩ => ""
          | ⟨u, humem⟩ => jsToString u)
  | Value.vObj _ => "[object Object]"
termination_by sizeOf v
decreasing_by
  all_goals
    simp only [Value.vArr.sizeOf_spec]
    have := List.sizeOf_lt_of_mem humem
    omega

/-- Substitution applied to a successful evaluation in `render`:
`result !== null && result !== undefined ? String(result) : ""`. -/
def displayResult (r : Option Value) : String :=
  match r with
  | none => ""
  | some Value.vNull => ""
  | some v => jsToString v

/-- Substitution for one segment in `render`: literals are copied; a
placeholder is replaced by the string form of the evaluated (trimmed)
expression, or by its own full source text when evaluation throws. -/
def renderSeg (ev : String → Except String (Option Value)) : Seg → List Char
  | Seg.lit c => [c]
  | Seg.ph full inner =>
      match ev (String.mk (trimChars inner)) with
      | Except.ok r => (displayResult r).data
      | Except.error _ => full

/-- Substitution over a whole decomposition. -/
def renderSegs (ev : String → Except String (Option Value)) :
    List Seg → List Char
  | [] => []
  | s :: rest => renderSeg ev s ++ renderSegs ev rest

/-- Template interpolation (`render`): a global regex replace, i.e. the
decomposition of the template followed by per-placeholder substitution.
Note that `render` hands each expression straight to the sandboxed
evaluator: neither the length limit nor the dangerous-token scan of
`evaluate` is applied on this path. -/
def render (ev : String → Except String (Option Value))
    (template : String) : String :=
  String.mk (renderSegs ev (parseTemplate template.data))

/-- Word characters of the regex `\b` boundary: ASCII letters, digits and
underscore. -/
def isWordChar (c : Char) : Bool := c.isAlphanum || c = '_'

/-- Boundary test for the character adjacent to a candidate token
occurrence (`none` = string edge). -/
def boundaryOk : Option Char → Bool
  | none => true
  | some c => !isWordChar c

/-- Does `tok` occur at the head of `l` with word boundaries on both
sides, `prev` being the character just before `l`? -/
def wordAt (tok : List Char) (prev : Option Char) (l : List Char) : Bool :=
  boundaryOk prev && tok.isPrefixOf l && boundaryOk (l.drop tok.length).head?

/-- Scan for a word-bounded occurrence of `tok`. -/
def containsWordAux (tok : List Char) : Option Char → List Char → Bool
  | prev, [] => wordAt tok prev []
  | prev, c :: cs => wordAt tok prev (c :: cs) || containsWordAux tok (some c) cs

/-- Test for the deny-list regexes of the form `\btoken\b`. -/
def containsWord (tok e : String) : Bool :=
  containsWordAux tok.data none e.data

/-- Test for the relative-path-traversal pattern `\.\.` (two consecutive
dots anywhere, no word boundaries). -/
def hasDotDot : List Char → Bool
  | [] => false
  | c :: cs =>
      (c = '.' && (match cs with | c2 :: _ => c2 = '.' | [] => false)) ||
      hasDotDot cs

/-- Deny-listed word tokens of `containsDangerousCode`, in source
order. -/
def dangerousWordTokens : List String :=
  ["process", "window", "global", "require", "import", "eval", "Function",
   "constructor", "__proto__", "prototype", "setTimeout", "setInterval",
   "setImmediate", "Buffer", "fs", "path", "os", "child_process",
   "cluster", "dgram", "dns", "http", "https", "net", "tls", "url",
   "querystring"]

/-- Dangerous-pattern scan (`containsDangerousCode`): any word-bounded
deny-listed token, or two consecutive dots. -/
def containsDangerousCode (e : String) : Bool :=
  dangerousWordTokens.any (fun tok => containsWord tok e) || hasDotDot e.data

/-- Maximum accepted expression length. -/
def MAX_EXPRESSION_LENGTH : Nat := 1000

/-- Raw evaluation (`evaluate`): reject over-long expressions, reject
expressions containing dangerous patterns, then hand the (untrimmed)
expression to the sandboxed evaluator, prefixing any thrown message. -/
def evaluate (ev : String → Except String (Option Value))
    (expression : String) : Except String (Option Value) :=
  if MAX_EXPRESSION_LENGTH < expression.length then
    Except.error
      ("Expression too long: " ++ toString expression.length ++ " > 1000")
  else if containsDangerousCode expression then
    Except.error "Expression contains potentially dangerous code"
  else
    match ev expression with
    | Except.ok r => Except.ok r
    | Except.error msg => Except.error ("Template evaluation error: " ++ msg)

/-- Evaluation context built by `createContext` at the start of every
single `render` or `evaluate` call: the `now` field is the wall clock
read once, at context creation (`const fixedNow = new Date()`). Only the
fields relevant to the verified claims are carried; the closures
(`uuid`, `rand`, `faker`) are modelled separately below. -/
structure TemplateContext where
  req : Value
  session : Value
  state : Value
  now : Nat

/-- Context creation (`createContext`) at clock time `t`. -/
def createContext (t : Nat) (req session state : Value) : TemplateContext :=
  ⟨req, session, state, t⟩

/-- One `render` call at clock time `t`: the context is created once and
every placeholder of the template is evaluated against that same
context. -/
def renderAt (ev : String → TemplateContext → Except String (Option Value))
    (t : Nat) (req session state : Value) (tpl : String) : String :=
  let ctx := createContext t req session state
  render (fun e => ev e ctx) tpl

end TemplateEngine

/-! ## Seeded pseudo-randomness of the template engine
(src/core/template.ts, constructor / createSeededRng / hashString /
createFakerAPI / createContext)

All JS 32-bit bitwise operations are modelled on the unsigned 32-bit bit
pattern (a `Nat` below `2 ^ 32`): `x | 0`, `Math.imul`, `^`, `|`, `>>>`
agree with this view, and the produced numerator `(t ^ (t >>> 14)) >>> 0`
is returned directly (the JS value is that numerator divided by `2 ^ 32`,
a division kept symbolic; `Math.floor(rng() * n)` is then
`numerator * n / 2 ^ 32` in integer arithmetic, exact for every factor
`n < 2 ^ 21` — all factors appearing in the source are far smaller). The
`uuid` package's `uuidv4()` draws fresh platform entropy unrelated to the
seed; it is modelled as consuming the head of an explicit entropy
stream. -/

namespace TemplateEngine

/-- Modulus of 32-bit bit patterns. -/
def U32 : Nat := 4294967296

/-- Low 32 bits of a product (`Math.imul`, viewed on bit patterns). -/
def imul32 (a b : Nat) : Nat := (a * b) % U32

/-- Signed 32-bit wraparound (`x | 0` and `x & x` on integers). -/
def toInt32 (n : Int) : Int :=
  let r := n % (4294967296 : Int)
  if r < 2147483648 then r else r - 4294967296

/-- One step of `hashString`: `hash = (hash << 5) - hash + charCode` with
32-bit wraparound of both the shift and the accumulated value. -/
def hashStep (h : Int) (c : Nat) : Int :=
  toInt32 (toInt32 (h * 32) - h + c)

/-- String hash seeding the PRNG (`hashString`): fold the hash step over
the character codes and take the absolute value. -/
def hashString (s : String) : Nat :=
  (s.data.foldl (fun h c => hashStep h c.toNat) 0).natAbs

/-- One draw of the mulberry32-style PRNG (`createSeededRng`): returns
the 32-bit numerator of the produced fraction and the advanced state. -/
def mulberryNext (a : Nat) : Nat × Nat :=
  let a1 := (a + 0x6D2B79F5) % U32
  let t1 := imul32 (a1 ^^^ (a1 >>> 15)) (a1 ||| 1)
  let t2 := ((t1 + imul32 (t1 ^^^ (t1 >>> 7)) (t1 ||| 61)) % U32) ^^^ t1
  (t2 ^^^ (t2 >>> 14), a1)

/-- Private state of a `TemplateEngine` instance: the single seeded PRNG
state shared by `rand` and the faker generators. -/
structure EngineState where
  rngState : Nat
deriving DecidableEq

/-- Engine construction (`new TemplateEngine(seed)`): the seed string (or
`default-seed` when absent/empty — JS falsy) is hashed into the initial
PRNG state. -/
def mkEngine (seed : String) : EngineState :=
  ⟨hashString (if seed = "" then "default-seed" else seed)⟩

/-- Draw one numerator from the engine's stream (`this.rng()`). -/
def nextRand (e : EngineState) : Nat × EngineState :=
  let p := mulberryNext e.rngState
  (p.1, ⟨p.2⟩)

/-- Context helper `rand(min, max)`:
`Math.floor(this.rng() * (max - min + 1)) + min`. -/
def rand (e : EngineState) (lo hi : Int) : Int × EngineState :=
  let (n, e2) := nextRand e
  (lo + Int.fdiv ((n : Int) * (hi - lo + 1)) ((U32 : Nat) : Int), e2)

/-- Seeded pick from a fixed list (`randomChoice`):
`array[Math.floor(this.rng() * array.length)]`. -/
def randomChoice (e : EngineState) (arr : List String) : String × EngineState :=
  let (n, e2) := nextRand e
  ((arr.get? (n * arr.length / U32)).getD "", e2)

/-- Given-name pool of the deterministic faker surface. -/
def firstNames : List String :=
  ["John", "Jane", "Bob", "Alice", "Charlie", "Diana", "Eve", "Frank",
   "Grace", "Henry", "Ivy", "Jack", "Kate", "Liam", "Mia", "Noah"]

/-- Surname pool of the deterministic faker surface. -/
def lastNames : List String :=
  ["Smith", "Johnson", "Williams", "Brown", "Jones", "Garcia", "Miller",
   "Davis", "Rodriguez", "Martinez", "Hernandez", "Lopez", "Gonzalez"]

/-- Model of the `uuid` package's `uuidv4()`: consume one value of
platform entropy. The engine seed plays no part. -/
def uuidv4 (entropy : List Nat) : Nat × List Nat :=
  (entropy.headD 0, entropy.tail)

/-- Calls on the template evaluation context whose randomness the claims
quantify over: `rand`, the rng-driven faker generators, and the two
uuidv4-backed generators (`uuid()` and `faker.datatype.uuid()`). -/
inductive TCall where
  | randCall : Int → Int → TCall
  | fakerFirstName : TCall
  | fakerLastName : TCall
  | fakerNumber : Int → Int → TCall
  | fakerBoolean : TCall
  | uuidCall : TCall
  | fakerUuid : TCall
deriving DecidableEq

/-- Results of the context calls. -/
inductive TResult where
  | rNum : Int → TResult
  | rStr : String → TResult
  | rBool : Bool → TResult
  | rUuid : Nat → TResult
deriving DecidableEq

/-- Semantics of one context call as created by `createContext` /
`createFakerAPI`: `rand` and the rng-driven faker generators consume the
engine's single seeded stream; `uuid()` and `faker.datatype.uuid()` call
`uuidv4()` and consume platform entropy, leaving the seeded stream
untouched. `faker.datatype.boolean()` is `this.rng() > 0.5`, i.e. the
numerator exceeds `2 ^ 31`. -/
def evalCall : TCall → EngineState → List Nat → TResult × EngineState × List Nat
  | TCall.randCall lo hi, e, ent =>
      let (r, e2) := rand e lo hi
      (TResult.rNum r, e2, ent)
  | TCall.fakerFirstName, e, ent =>
      let (s, e2) := randomChoice e firstNames
      (TResult.rStr s, e2, ent)
  | TCall.fakerLastName, e, ent =>
      let (s, e2) := randomChoice e lastNames
      (TResult.rStr s, e2, ent)
  | TCall.fakerNumber lo hi, e, ent =>
      let (r, e2) := rand e lo hi
      (TResult.rNum r, e2, ent)
  | TCall.fakerBoolean, e, ent =>
      let (n, e2) := nextRand e
      (TResult.rBool (decide (2147483648 < n)), e2, ent)
  | TCall.uuidCall, e, ent =>
      let (u, rest) := uuidv4 ent
      (TResult.rUuid u, e, rest)
  | TCall.fakerUuid, e, ent =>
      let (u, rest) := uuidv4 ent
      (TResult.rUuid u, e, rest)

/-- Does a call reach `uuidv4()`? -/
def usesUuid : TCall → Bool
  | TCall.uuidCall => true
  | TCall.fakerUuid => true
  | _ => false

/-- Sequential evaluation of context calls, threading the single engine
stream and the entropy stream. -/
def evalCalls : List TCall → EngineState → List Nat →
    List TResult × EngineState × List Nat
  | [], e, ent => ([], e, ent)
  | c :: cs, e, ent =>
      let (r, e2, ent2) := evalCall c e ent
      let (rs, e3, ent3) := evalCalls cs e2 ent2
      (r :: rs, e3, ent3)

end TemplateEngine

/-! ## Auxiliary predicates and concrete instances used by the theorems -/

/-- Is the value a non-array, non-null object (the `typeof v === "object"
&& v !== null && !Array.isArray(v)` test of the merge)? -/
def Value.isObjB : Value → Bool
  | Value.vObj _ => true
  | _ => false

/-- Is the value an array? -/
def Value.isArrB : Value → Bool
  | Value.vArr _ => true
  | _ => false

/-- Does `get` at time `t` find the entry for `k` present but expired? -/
def FileStore.expiredAt (s : FileStore) (t : Nat) (k : String) : Bool :=
  match getKey s.cache k with
  | some e =>
      match e.expiresAt with
      | some exp => exp ≤ t
      | none => false
  | none => false

/-- Entry for `k` present and not expired at time `t`, as `patch` sees it
after its internal `get`. -/
def FileStore.liveEntry (s : FileStore) (t : Nat) (k : String) :
    Option FEntry :=
  match getKey s.cache k with
  | some e =>
      match e.expiresAt with
      | some exp => if exp ≤ t then none else some e
      | none => some e
  | none => none

/-- Entry for `k` present and not expired at time `t` in the memory
backend. -/
def MemoryStore.liveEntry (s : MemoryStore) (t : Nat) (k : String) :
    Option MEntry :=
  match getKey s.cache k with
  | some e =>
      match e.expiresAt with
      | some exp => if exp ≤ t then none else some e
      | none => some e
  | none => none

/-- A fresh memory store with the constructor defaults
(`maxSize` 10000, no `defaultTtl`). -/
def MemoryStore.empty : MemoryStore := ⟨[], 10000, none⟩

/-- A fresh file store: empty cache, empty log file, empty snapshot
file. -/
def FileStore.empty : FileStore := ⟨[], [], []⟩

/-- File store holding one entry written at time 0 with a 1-second TTL
(so `expiresAt = 1000`). -/
def FileStore.demo : FileStore :=
  FileStore.set FileStore.empty 0 "k" (Value.vStr "v") (some 1)

/-- Memory store after `set("k", \x7ba: 1\x7d, ttl = 1)` at time 0: the
entry expires at 1000. -/
def MemoryStore.demo1 : MemoryStore :=
  MemoryStore.set MemoryStore.empty 0 "k" (Value.vObj [("a", Value.vNum 1)])
    (some 1)

/-- The store above after `patch("k", \x7bb: 2\x7d)` at time 500 — within
the entry's lifetime. -/
def MemoryStore.demo2 : MemoryStore :=
  MemoryStore.patch MemoryStore.demo1 500 "k" (Value.vObj [("b", Value.vNum 2)])

/-- Regular-expression engine stub used for concrete scenario-matching
instances (no `$regex:` condition is exercised by them). -/
def noRegex : String → String → Bool := fun _ _ => false

/-- Selector on `operationId` `a` with `negate: true` and no
conditions. -/
def whenNegatedA : Router.WhenClause :=
  ⟨some "a", none, none, none, none, true⟩

/-- Operation with identifier `b` — the selector above does not match
its operation part. -/
def opB : Router.OpKey := ⟨"b", "GET", "/x"⟩

/-- Operation with identifier `a`. -/
def opA : Router.OpKey := ⟨"a", "GET", "/x"⟩

/-- Path-level parameter list declaring `id` (required). -/
def pathLevelParams : List ParamOrRef :=
  [ParamOrRef.param ⟨"id", "query", true⟩]

/-- Operation-level parameter list declaring `id` (optional). -/
def opLevelParams : List ParamOrRef :=
  [ParamOrRef.param ⟨"id", "query", false⟩]

/-- Evaluator that always throws, for exercising the failure path of
`render`. -/
def evAlwaysFails : String → Except String (Option Value) :=
  fun _ => Except.error "boom"

/-- Evaluator that always yields JS `undefined`, for exercising the
success path of `render` (substitution by the empty string). -/
def evUndefined : String → Except String (Option Value) :=
  fun _ => Except.ok none

/-! ## Helper lemmas -/

theorem getKey_setKey_self {α : Type} (l : List (String × α)) (k : String)
    (v : α) : getKey (setKey l k v) k = some v := by
  induction l with
  | nil => simp [setKey, getKey]
  | cons hd tl ih =>
      obtain ⟨k2, v2⟩ := hd
      by_cases h : k2 = k <;> simp [setKey, getKey, h, ih]

theorem getKey_setKey_ne {α : Type} (l : List (String × α)) (k k2 : String)
    (v : α) (h : k2 ≠ k) : getKey (setKey l k v) k2 = getKey l k2 := by
  induction l with
  | nil => simp [setKey, getKey, Ne.symm h]
  | cons hd tl ih =>
      obtain ⟨k3, v3⟩ := hd
      by_cases h3 : k3 = k
      · simp [setKey, getKey, h3, Ne.symm h]
      · by_cases h4 : k3 = k2 <;> simp [setKey, getKey, h, h3, h4, ih]

theorem setKey_of_not_mem {α : Type} (l : List (String × α)) (k : String)
    (v : α) (h : k ∉ keysOf l) : setKey l k v = l ++ [(k, v)] := by
  induction l with
  | nil => simp [setKey]
  | cons hd tl ih =>
      obtain ⟨k2, v2⟩ := hd
      simp only [keysOf, List.map_cons, List.mem_cons] at h
      push_neg at h
      simp [setKey, Ne.symm h.1, ih (by simpa [keysOf] using h.2)]

theorem objSpread_disjoint (a b : List (String × Value))
    (hnodup : (keysOf b).Nodup) (hdisj : ∀ k ∈ keysOf b, k ∉ keysOf a) :
    objSpread a b = a ++ b := by
  induction b generalizing a with
  | nil => simp [objSpread]
  | cons hd tl ih =>
      obtain ⟨k, v⟩ := hd
      simp only [keysOf, List.map_cons, List.nodup_cons] at hnodup
      have hk : k ∉ keysOf a := hdisj k (by simp [keysOf])
      have step : setKey a k v = a ++ [(k, v)] := setKey_of_not_mem a k v hk
      have htl : ∀ k2 ∈ keysOf tl, k2 ∉ keysOf (a ++ [(k, v)]) := by
        intro k2 hk2
        have h1 : k2 ∉ keysOf a :=
          hdisj k2 (by simp only [keysOf, List.map_cons, List.mem_cons]; right; exact hk2)
        have h2 : k2 ≠ k := by
          intro h
          subst h
          exact hnodup.1 (by simpa [keysOf] using hk2)
        intro hmem
        rcases (by simpa [keysOf] using hmem : k2 ∈ keysOf a ∨ k2 = k) with h | h
        · exact h1 h
        · exact h2 h
      have hres := ih (a ++ [(k, v)]) hnodup.2 htl
      simp only [objSpread, List.foldl_cons] at hres ⊢
      rw [step, hres]
      simp

theorem mergeValue_replace (x y : Value) (h1 : (x.isObjB && y.isObjB) = false)
    (h2 : (x.isArrB && y.isArrB) = false) : mergeValue x y = y := by
  cases x <;> cases y <;> simp_all [mergeValue, Value.isObjB, Value.isArrB]

theorem getKey_parseQuery (pairs : List (String × String)) (k : String) :
    getKey (Router.parseQuery pairs) k = Router.lastVal pairs k := by
  suffices h : ∀ (ps : List (String × String)) (acc : List (String × String)),
      getKey (ps.foldl (fun a p => setKey a p.1 p.2) acc) k =
        (match Router.lastVal ps k with
         | some v => some v
         | none => getKey acc k) by
    have h2 := h pairs []
    cases hl : Router.lastVal pairs k <;>
      simpa [Router.parseQuery, getKey, hl] using h2
  intro ps
  induction ps with
  | nil => intro acc; simp [Router.lastVal]
  | cons p rest ih =>
      intro acc
      simp only [List.foldl_cons]
      rw [ih]
      cases hl : Router.lastVal rest k with
      | some v => simp [Router.lastVal, hl]
      | none =>
          by_cases hp : p.1 = k
          · subst hp
            simp [Router.lastVal, hl, getKey_setKey_self]
          · simp [Router.lastVal, hl, hp, getKey_setKey_ne acc p.1 k p.2 (Ne.symm hp)]

/-! ## C5 — parsed query and repeated keys -/

/-- C5 counterexample: for the query string pairs of `a=1&a=2` the parsed
query binds `a` to `2` (the last occurrence), not to the first
occurrence's value `1` as the claim states. -/
theorem c5_counterexample :
    getKey (Router.parseQuery [("a", "1"), ("a", "2")]) "a" ≠
      Router.firstVal [("a", "1"), ("a", "2")] "a" := by
  decide

/-- C5 (amended): for every incoming request whose query string repeats a
key, the parsed query map binds that key to the LAST occurrence's value
(each pair is assigned in order, later assignments overwriting earlier
ones); a key that never occurs is absent. -/
theorem c5_query_last_wins (pairs : List (String × String)) (k : String) :
    getKey (Router.parseQuery pairs) k = Router.lastVal pairs k :=
  getKey_parseQuery pairs k

/-! ## C7 — the negate flag of scenario selectors -/

/-- C7 counterexample: a rule selecting `operationId: a` with
`negate: true`, applied to operation `b`: the un-negated combination does
not match, so the claim says the rule is selected; `scenarioMatches`
returns `false` because the early return on an operation mismatch happens
before `negate` is consulted (the spec-side outcome `specNegatedOutcome`
disagrees with the code). -/
theorem c7_counterexample :
    Router.scenarioMatches noRegex whenNegatedA opB [] [] = false ∧
    Router.specNegatedOutcome noRegex whenNegatedA opB [] [] = true := by
  decide

/-- C7 (amended): the negate flag flips only the outcome of the
query/header condition checks, and only after the operation part of the
selector has matched; when the operation part fails (or the selector is
invalid) the rule is never selected, regardless of `negate`. -/
theorem c7_negate_scope (rt : String → String → Bool)
    (w : Router.WhenClause) (op : Router.OpKey)
    (query headers : List (String × String)) :
    (Router.opSelector w op ≠ some true →
      Router.scenarioMatches rt w op query headers = false) ∧
    (Router.opSelector w op = some true →
      Router.scenarioMatches rt w op query headers =
        (if w.negate then !(Router.condsMatch rt w query headers)
         else Router.condsMatch rt w query headers)) := by
  constructor
  · intro h
    unfold Router.scenarioMatches
    cases hsel : Router.opSelector w op with
    | none => rfl
    | some m =>
        cases m with
        | false => rfl
        | true => exact absurd hsel h
  · intro h
    unfold Router.scenarioMatches
    rw [h]
    rfl

/-- C7 witness for the amended theorem: with a matching operation part
and no conditions, a negated rule is not selected. -/
theorem c7_witness :
    Router.scenarioMatches noRegex whenNegatedA opA [] [] =
      (if whenNegatedA.negate then !(Router.condsMatch noRegex whenNegatedA [] [])
       else Router.condsMatch noRegex whenNegatedA [] []) :=
  (c7_negate_scope noRegex whenNegatedA opA [] []).2 (by decide)

/-! ## C8 — merging path-level and operation-level parameters -/

/-- C8 counterexample: with parameter `id` declared at both the path
level and the operation level, the built parameter list contains TWO
descriptors named `id`, not exactly one as the claim states. -/
theorem c8_counterexample :
    OpenAPILoader.countName
      (OpenAPILoader.collectParameters pathLevelParams opLevelParams) "id" = 2 := by
  decide

/-- C8 (amended): the built parameter list is the plain concatenation of
the inline path-level parameters followed by the inline operation-level
parameters; no deduplication by name happens, so a name declared at both
levels contributes one descriptor per level (counts add up). -/
theorem c8_parameters_concat (pathLevel opLevel : List ParamOrRef)
    (n : String) :
    OpenAPILoader.collectParameters pathLevel opLevel =
      OpenAPILoader.inlineParams pathLevel ++ OpenAPILoader.inlineParams opLevel ∧
    OpenAPILoader.countName
        (OpenAPILoader.collectParameters pathLevel opLevel) n =
      OpenAPILoader.countName (OpenAPILoader.inlineParams pathLevel) n +
        OpenAPILoader.countName (OpenAPILoader.inlineParams opLevel) n := by
  refine ⟨rfl, ?_⟩
  simp [OpenAPILoader.collectParameters, OpenAPILoader.countName,
    List.filter_append]

/-! ## C10 — the GLOBAL session sentinel and state namespacing -/

/-- C10: a request explicitly supplying the session identifier `GLOBAL`
(via the `X-Sandbox-Session` header, the `sandbox_session` cookie, or the
`Authorization` header) resolves to the very same session id `GLOBAL` as
a request with no credentials at all; default-scope state actions for
both write under the namespace `session:GLOBAL:<key>`, and the
`global:<key>` namespace is produced exactly when an action explicitly
passes scope `global`. -/
theorem c10_global_sentinel (req1 req2 : SandboxRequest)
    (h1 : Sandbox.suppliesGlobal req1) (h2 : Sandbox.noCredentials req2) :
    Sandbox.extractSessionId req1 = "GLOBAL" ∧
    Sandbox.extractSessionId req2 = "GLOBAL" ∧
    (∀ k : String,
      Sandbox.buildStateKey k (Sandbox.extractSessionId req1)
          (Sandbox.resolveScope none) = "session:GLOBAL:" ++ k ∧
      Sandbox.buildStateKey k (Sandbox.extractSessionId req2)
          (Sandbox.resolveScope none) = "session:GLOBAL:" ++ k) ∧
    (∀ o : Option Sandbox.Scope,
      Sandbox.resolveScope o = Sandbox.Scope.global ↔
        o = some Sandbox.Scope.global) ∧
    (∀ (k sid : String),
      Sandbox.buildStateKey k sid Sandbox.Scope.global = "global:" ++ k) := by
  have e1 : Sandbox.extractSessionId req1 = "GLOBAL" := by
    unfold Sandbox.extractSessionId
    rcases h1 with h | ⟨ha, hb⟩ | ⟨ha, hb, hc⟩
    · rw [h]
    · rw [ha, hb]
    · rw [ha, hb, hc]
  have e2 : Sandbox.extractSessionId req2 = "GLOBAL" := by
    unfold Sandbox.extractSessionId
    rw [h2.1, h2.2.1, h2.2.2]
  refine ⟨e1, e2, ?_, ?_, ?_⟩
  · intro k
    rw [e1, e2]
    constructor <;> rfl
  · intro o
    cases o with
    | none => simp [Sandbox.resolveScope]
    | some sc => cases sc <;> simp [Sandbox.resolveScope]
  · intro k sid
    rfl

/-! ## C4 — disk effects of file-store reads -/

/-- C4 counterexample: a `get` that finds the entry expired appends a
`del` record to the append log: reading key `k` of the demo store (expiry
1000) at time 2000 grows the log, so reads do touch the disk. -/
theorem c4_counterexample :
    (FileStore.get FileStore.demo 2000 "k").2.log.length ≠
      FileStore.demo.log.length := by
  decide

/-- C4 (amended): a `get` never touches the snapshot file; it leaves the
whole store (log included) unchanged unless it finds the entry present
and expired, in which case it deletes the entry and appends exactly one
`del` record to the append log. -/
theorem c4_get_disk_effect (s : FileStore) (t : Nat) (k : String) :
    ((FileStore.get s t k).2.snapshot = s.snapshot) ∧
    (FileStore.expiredAt s t k = false → (FileStore.get s t k).2 = s) ∧
    (FileStore.expiredAt s t k = true →
      (FileStore.get s t k).2.log = s.log ++ [⟨t, LogOp.del, k, none, none⟩]) := by
  cases hk : getKey s.cache k with
  | none => simp [FileStore.get, FileStore.expiredAt, hk]
  | some e =>
      cases he : e.expiresAt with
      | none => simp [FileStore.get, FileStore.expiredAt, hk, he]
      | some exp =>
          by_cases hle : exp ≤ t <;>
            simp [FileStore.get, FileStore.expiredAt, hk, he, hle,
              FileStore.appendLog]

/-- C4 witness: on the demo store, an unexpired read (time 0) leaves the
store untouched, and an expired read (time 2000) appends exactly the
`del` record. -/
theorem c4_witness :
    (FileStore.get FileStore.demo 0 "k").2 = FileStore.demo ∧
    (FileStore.get FileStore.demo 2000 "k").2.log =
      FileStore.demo.log ++ [⟨2000, LogOp.del, "k", none, none⟩] :=
  ⟨(c4_get_disk_effect FileStore.demo 0 "k").2.1 (by decide),
   (c4_get_disk_effect FileStore.demo 2000 "k").2.2 (by decide)⟩

/-- C10 witness: a request carrying the header `X-Sandbox-Session: GLOBAL`
and a request carrying nothing resolve the same session id. -/
theorem c10_witness :
    Sandbox.extractSessionId ⟨[("x-sandbox-session", "GLOBAL")], []⟩ = "GLOBAL" ∧
    Sandbox.extractSessionId ⟨[], []⟩ = "GLOBAL" :=
  ⟨(c10_global_sentinel ⟨[("x-sandbox-session", "GLOBAL")], []⟩ ⟨[], []⟩
      (Or.inl rfl) ⟨rfl, rfl, rfl⟩).1,
   (c10_global_sentinel ⟨[("x-sandbox-session", "GLOBAL")], []⟩ ⟨[], []⟩
      (Or.inl rfl) ⟨rfl, rfl, rfl⟩).2.1⟩

/-! ## C6 — deep-merge patch and expiry preservation -/

/-- C6 counterexample: on the memory backend,
`set(k, \x7ba:1\x7d, ttl=1)` at time 0 (expiry 1000) followed by
`patch(k, \x7bb:2\x7d)` at time 500 recomputes the remaining TTL as
`Math.floor(500/1000) = 0`, which is falsy, so the entry loses its expiry
entirely: a `get` at time 2000 — well past the original expiry — still
returns the merged value instead of absent, refuting the claim that
patch preserves the prior expiry in every case. -/
theorem c6_counterexample :
    (MemoryStore.get MemoryStore.demo2 2000 "k").1 ≠ none := by
  intro h
  rw [show (MemoryStore.get MemoryStore.demo2 2000 "k").1 =
      some (Value.vObj [("a", Value.vNum 1), ("b", Value.vNum 2)]) from rfl] at h
  exact Option.noConfusion h

/-- C6 (amended): `patch(k, v)` obeys the deep-merge table — absent
entries are created with value `v`, two non-array objects merge by
shallow key-wise override (hence key-wise union for disjoint keys), two
arrays concatenate existing-first, anything else is replaced by `v` —
and the prior expiry is preserved exactly by the file backend, while the
memory backend only preserves it quantized to whole seconds: the new
expiry is `now + 1000 * floor((expiresAt - now)/1000)`, so it can shrink
by up to 999 ms, and the expiry is dropped entirely (no expiry) when
less than one full second remains. -/
theorem c6_patch_semantics :
    (∀ (t t2 : Nat) (k : String) (v : Value),
      (MemoryStore.get (MemoryStore.patch MemoryStore.empty t k v) t2 k).1 =
        some v) ∧
    (∀ (t t2 : Nat) (k : String) (a b : List (String × Value)),
      (keysOf b).Nodup → (∀ x ∈ keysOf b, x ∉ keysOf a) →
      (MemoryStore.get
        (MemoryStore.patch
          (MemoryStore.set MemoryStore.empty t k (Value.vObj a) none)
          t k (Value.vObj b)) t2 k).1 = some (Value.vObj (a ++ b))) ∧
    (∀ (t t2 : Nat) (k : String) (a b : List Value),
      (MemoryStore.get
        (MemoryStore.patch
          (MemoryStore.set MemoryStore.empty t k (Value.vArr a) none)
          t k (Value.vArr b)) t2 k).1 = some (Value.vArr (a ++ b))) ∧
    (∀ (t t2 : Nat) (k : String) (x y : Value),
      (x.isObjB && y.isObjB) = false → (x.isArrB && y.isArrB) = false →
      (MemoryStore.get
        (MemoryStore.patch (MemoryStore.set MemoryStore.empty t k x none) t k y)
        t2 k).1 = some y) ∧
    (∀ (s : FileStore) (t : Nat) (k : String) (v : Value) (e : FEntry),
      FileStore.liveEntry s t k = some e →
      (getKey (FileStore.patch s t k v).cache k).map FEntry.value =
        some (mergeValue e.value v) ∧
      (getKey (FileStore.patch s t k v).cache k).map FEntry.expiresAt =
        some e.expiresAt) ∧
    (∀ (s : MemoryStore) (t : Nat) (k : String) (v : Value) (e : MEntry)
        (exp : Nat),
      MemoryStore.liveEntry s t k = some e → e.expiresAt = some exp →
      getKey (MemoryStore.patch s t k v).cache k =
        some ⟨mergeValue e.value v,
          if (exp - t) / 1000 = 0 then none
          else some (t + ((exp - t) / 1000) * 1000)⟩) := by
  refine ⟨?_, ?_, ?_, ?_, ?_, ?_⟩
  · intro t t2 k v
    simp [MemoryStore.patch, MemoryStore.get, MemoryStore.set,
      MemoryStore.serialize, MemoryStore.evictOldest, MemoryStore.empty,
      getKey, setKey]
  · intro t t2 k a b hnodup hdisj
    simp [MemoryStore.patch, MemoryStore.get, MemoryStore.set,
      MemoryStore.serialize, MemoryStore.evictOldest, MemoryStore.empty,
      MemoryStore.remainingTtl, getKey, setKey, mergeValue,
      objSpread_disjoint a b hnodup hdisj]
  · intro t t2 k a b
    simp [MemoryStore.patch, MemoryStore.get, MemoryStore.set,
      MemoryStore.serialize, MemoryStore.evictOldest, MemoryStore.empty,
      MemoryStore.remainingTtl, getKey, setKey, mergeValue]
  · intro t t2 k x y h1 h2
    simp [MemoryStore.patch, MemoryStore.get, MemoryStore.set,
      MemoryStore.serialize, MemoryStore.evictOldest, MemoryStore.empty,
      MemoryStore.remainingTtl, getKey, setKey, mergeValue_replace x y h1 h2]
  · intro s t k v e hlive
    cases hk : getKey s.cache k with
    | none => simp [FileStore.liveEntry, hk] at hlive
    | some e2 =>
        cases he : e2.expiresAt with
        | none =>
            simp only [FileStore.liveEntry, hk, he, Option.some.injEq] at hlive
            subst hlive
            simp [FileStore.patch, FileStore.get, hk, he, FileStore.serialize,
              FileStore.appendLog, getKey_setKey_self]
        | some exp =>
            by_cases hle : exp ≤ t
            · simp [FileStore.liveEntry, hk, he, hle] at hlive
            · simp [FileStore.liveEntry, hk, he, hle] at hlive
              subst hlive
              simp [FileStore.patch, FileStore.get, hk, he, hle,
                FileStore.serialize, FileStore.appendLog, getKey_setKey_self]
  · intro s t k v e exp hlive hexp
    cases hk : getKey s.cache k with
    | none => simp [MemoryStore.liveEntry, hk] at hlive
    | some e2 =>
        cases he : e2.expiresAt with
        | none =>
            simp only [MemoryStore.liveEntry, hk, he, Option.some.injEq] at hlive
            subst hlive
            rw [he] at hexp
            exact Option.noConfusion hexp
        | some exp2 =>
            by_cases hle : exp2 ≤ t
            · simp [MemoryStore.liveEntry, hk, he, hle] at hlive
            · simp [MemoryStore.liveEntry, hk, he, hle] at hlive
              subst hlive
              rw [he] at hexp
              have hexp2 : exp2 = exp := Option.some.inj hexp
              subst hexp2
              simp [MemoryStore.patch, MemoryStore.get, hk, he, hle,
                MemoryStore.remainingTtl, MemoryStore.set,
                MemoryStore.serialize, MemoryStore.evictOldest,
                getKey_setKey_self]

/-- C6 witness: concrete instances of the amended patch semantics — a
disjoint object merge, a primitive replacement, an exact expiry
preservation on the file backend, and the quantized expiry recomputation
on the memory backend (which here drops the expiry). -/
theorem c6_witness :
    (MemoryStore.get
      (MemoryStore.patch
        (MemoryStore.set MemoryStore.empty 0 "k" (Value.vObj [("a", Value.vNum 1)]) none)
        0 "k" (Value.vObj [("b", Value.vNum 2)])) 0 "k").1 =
      some (Value.vObj ([("a", Value.vNum 1)] ++ [("b", Value.vNum 2)])) ∧
    (MemoryStore.get
      (MemoryStore.patch
        (MemoryStore.set MemoryStore.empty 0 "k" (Value.vStr "s") none)
        0 "k" (Value.vNum 7)) 0 "k").1 = some (Value.vNum 7) ∧
    (getKey (FileStore.patch FileStore.demo 0 "k" (Value.vNum 3)).cache "k").map
        FEntry.value = some (mergeValue (Value.vStr "v") (Value.vNum 3)) ∧
    (getKey (FileStore.patch FileStore.demo 0 "k" (Value.vNum 3)).cache "k").map
        FEntry.expiresAt = some (some 1000) ∧
    getKey (MemoryStore.patch MemoryStore.demo1 500 "k"
        (Value.vObj [("b", Value.vNum 2)])).cache "k" =
      some ⟨mergeValue (Value.vObj [("a", Value.vNum 1)]) (Value.vObj [("b", Value.vNum 2)]),
        if (1000 - 500) / 1000 = 0 then none
        else some (500 + ((1000 - 500) / 1000) * 1000)⟩ :=
  ⟨c6_patch_semantics.2.1 0 0 "k" [("a", Value.vNum 1)] [("b", Value.vNum 2)]
      (by decide) (by decide),
   c6_patch_semantics.2.2.2.1 0 0 "k" (Value.vStr "s") (Value.vNum 7)
      (by decide) (by decide),
   (c6_patch_semantics.2.2.2.2.1 FileStore.demo 0 "k" (Value.vNum 3)
      ⟨Value.vStr "v", some 1000, 0, 0⟩ rfl).1,
   (c6_patch_semantics.2.2.2.2.1 FileStore.demo 0 "k" (Value.vNum 3)
      ⟨Value.vStr "v", some 1000, 0, 0⟩ rfl).2,
   c6_patch_semantics.2.2.2.2.2 MemoryStore.demo1 500 "k"
      (Value.vObj [("b", Value.vNum 2)]) ⟨Value.vObj [("a", Value.vNum 1)], some 1000⟩
      1000 rfl rfl⟩

/-! ## C9 — render substitution and verbatim fallback -/

theorem segsSource_map_lit (l : List Char) :
    TemplateEngine.segsSource (l.map TemplateEngine.Seg.lit) = l := by
  induction l with
  | nil => rfl
  | cons c cs ih =>
      simp [TemplateEngine.segsSource, TemplateEngine.segSource, ih]

theorem segsSource_parseTF (f : Nat) (l : List Char) :
    TemplateEngine.segsSource (TemplateEngine.parseTF f l) = l := by
  induction f generalizing l with
  | zero => exact segsSource_map_lit l
  | succ f ih =>
      cases l with
      | nil => rfl
      | cons c cs =>
          simp only [TemplateEngine.parseTF]
          cases hm : TemplateEngine.tryMatch (c :: cs) with
          | none =>
              simp [TemplateEngine.segsSource, TemplateEngine.segSource, ih]
          | some p =>
              obtain ⟨n, inner⟩ := p
              simp [TemplateEngine.segsSource, TemplateEngine.segSource, ih,
                List.take_append_drop]

theorem renderSegs_of_fail (ev : String → Except String (Option Value))
    (hfail : ∀ e, ∃ msg, ev e = Except.error msg)
    (segs : List TemplateEngine.Seg) :
    TemplateEngine.renderSegs ev segs = TemplateEngine.segsSource segs := by
  induction segs with
  | nil => rfl
  | cons s rest ih =>
      cases s with
      | lit c =>
          simp [TemplateEngine.renderSegs, TemplateEngine.segsSource,
            TemplateEngine.segSource, TemplateEngine.renderSeg, ih]
      | ph full inner =>
          obtain ⟨msg, hm⟩ := hfail (String.mk (TemplateEngine.trimChars inner))
          simp [TemplateEngine.renderSegs, TemplateEngine.segsSource,
            TemplateEngine.segSource, TemplateEngine.renderSeg, hm, ih]

/-- C9: `render` decomposes the template into literal runs and
placeholder matches whose source texts reconstruct the template exactly;
each placeholder is substituted by the string form of its successfully
evaluated (trimmed) expression — the empty string for a null or absent
result, per `displayResult` — and by its own original source text
verbatim when evaluation throws; in particular, with an evaluator that
always throws, `render` returns the template unchanged, so templated
strings never leak evaluator internals. -/
theorem c9_render_substitution (ev : String → Except String (Option Value))
    (tpl : String) :
    String.mk (TemplateEngine.segsSource (TemplateEngine.parseTemplate tpl.data)) = tpl ∧
    (∀ full inner,
      TemplateEngine.Seg.ph full inner ∈ TemplateEngine.parseTemplate tpl.data →
      (∀ msg, ev (String.mk (TemplateEngine.trimChars inner)) = Except.error msg →
        TemplateEngine.renderSeg ev (TemplateEngine.Seg.ph full inner) = full) ∧
      (∀ r, ev (String.mk (TemplateEngine.trimChars inner)) = Except.ok r →
        TemplateEngine.renderSeg ev (TemplateEngine.Seg.ph full inner) =
          (TemplateEngine.displayResult r).data)) ∧
    ((∀ e, ∃ msg, ev e = Except.error msg) →
      TemplateEngine.render ev tpl = tpl) := by
  refine ⟨?_, ?_, ?_⟩
  · show String.mk (TemplateEngine.segsSource
      (TemplateEngine.parseTF (tpl.data.length + 1) tpl.data)) = tpl
    rw [segsSource_parseTF]
  · intro full inner _
    constructor
    · intro msg hev
      simp [TemplateEngine.renderSeg, hev]
    · intro r hev
      simp [TemplateEngine.renderSeg, hev]
  · intro hfail
    show String.mk (TemplateEngine.renderSegs ev
      (TemplateEngine.parseTemplate tpl.data)) = tpl
    rw [renderSegs_of_fail ev hfail]
    show String.mk (TemplateEngine.segsSource
      (TemplateEngine.parseTF (tpl.data.length + 1) tpl.data)) = tpl
    rw [segsSource_parseTF]

/-- C9 witness: a template with one placeholder rendered under an
always-throwing evaluator comes back verbatim. -/
theorem c9_witness :
    TemplateEngine.render evAlwaysFails "a\x7b\x7b x \x7d\x7db" =
      "a\x7b\x7b x \x7d\x7db" :=
  (c9_render_substitution evAlwaysFails "a\x7b\x7b x \x7d\x7db").2.2
    (fun _ => ⟨"boom", rfl⟩)

/-! ## C1 — length limit and deny-list enforcement -/

/-- C1 counterexample: `process` is deny-listed, yet a placeholder
containing it is NOT rejected by `render`: the expression is handed to
the sandboxed evaluator (here yielding `undefined`) and the placeholder
is substituted (by the empty string), because `render` calls the
evaluator directly and applies neither the length check nor the
dangerous-token scan of `evaluate`. -/
theorem c1_counterexample :
    TemplateEngine.containsDangerousCode "process" = true ∧
    TemplateEngine.render evUndefined "\x7b\x7bprocess\x7d\x7d" = "" := by
  decide

/-- C1 (amended): only `evaluate` applies the safety checks — it rejects
an expression longer than 1000 characters, and rejects an expression
containing a deny-listed token, before any evaluation; `render` applies
neither check: a placeholder expression, deny-listed or not, is passed to
the evaluator, and on success its result is substituted. -/
theorem c1_evaluate_checks (ev : String → Except String (Option Value))
    (e : String) :
    (TemplateEngine.MAX_EXPRESSION_LENGTH < e.length →
      TemplateEngine.evaluate ev e =
        Except.error ("Expression too long: " ++ toString e.length ++ " > 1000")) ∧
    (e.length ≤ TemplateEngine.MAX_EXPRESSION_LENGTH →
      TemplateEngine.containsDangerousCode e = true →
      TemplateEngine.evaluate ev e =
        Except.error "Expression contains potentially dangerous code") ∧
    (∀ (full inner : List Char) (r : Option Value),
      TemplateEngine.containsDangerousCode
        (String.mk (TemplateEngine.trimChars inner)) = true →
      ev (String.mk (TemplateEngine.trimChars inner)) = Except.ok r →
      TemplateEngine.renderSeg ev (TemplateEngine.Seg.ph full inner) =
        (TemplateEngine.displayResult r).data) := by
  refine ⟨?_, ?_, ?_⟩
  · intro h
    unfold TemplateEngine.evaluate
    rw [if_pos h]
  · intro h1 h2
    unfold TemplateEngine.evaluate
    rw [if_neg (by omega), if_pos h2]
  · intro full inner r _ hev
    simp [TemplateEngine.renderSeg, hev]

/-- C1 witness: `evaluate("process")` refuses with the dangerous-code
error. -/
theorem c1_witness :
    TemplateEngine.evaluate evUndefined "process" =
      Except.error "Expression contains potentially dangerous code" :=
  (c1_evaluate_checks evUndefined "process").2.1 (by decide) (by decide)

/-! ## C2 — seeded determinism and the uuid source -/

/-- C2 counterexample: two template engines constructed with the same
seed `s` disagree on the side-effect-free expression `uuid()` when their
ambient platform entropy differs, because `uuid: () => uuidv4()` draws
from the unseeded uuid package, not from the seeded stream. -/
theorem c2_counterexample :
    (TemplateEngine.evalCall TemplateEngine.TCall.uuidCall
        (TemplateEngine.mkEngine "s") [0]).1 ≠
      (TemplateEngine.evalCall TemplateEngine.TCall.uuidCall
        (TemplateEngine.mkEngine "s") [1]).1 := by
  decide

theorem evalCall_no_uuid_ent (c : TemplateEngine.TCall)
    (e : TemplateEngine.EngineState) (ent1 ent2 : List Nat)
    (h : TemplateEngine.usesUuid c = false) :
    (TemplateEngine.evalCall c e ent1).1 = (TemplateEngine.evalCall c e ent2).1 ∧
    (TemplateEngine.evalCall c e ent1).2.1 =
      (TemplateEngine.evalCall c e ent2).2.1 := by
  cases c <;> simp_all [TemplateEngine.evalCall, TemplateEngine.usesUuid]

/-- C2 (amended): `rand(lo, hi)` and the rng-driven `faker.*` generators
draw from the engine's single seeded mulberry32 stream, so for every
seed, every program of such calls produces identical results and
identical final stream state on two independently constructed engines
regardless of their ambient entropy; `uuid()` and
`faker.datatype.uuid()`, however, call the unseeded `uuidv4()` and are
not determined by the seed. -/
theorem c2_seed_determinism (seed : String)
    (prog : List TemplateEngine.TCall) (ent1 ent2 : List Nat)
    (h : ∀ c ∈ prog, TemplateEngine.usesUuid c = false) :
    (TemplateEngine.evalCalls prog (TemplateEngine.mkEngine seed) ent1).1 =
      (TemplateEngine.evalCalls prog (TemplateEngine.mkEngine seed) ent2).1 ∧
    (TemplateEngine.evalCalls prog (TemplateEngine.mkEngine seed) ent1).2.1 =
      (TemplateEngine.evalCalls prog (TemplateEngine.mkEngine seed) ent2).2.1 := by
  suffices hgen : ∀ (ps : List TemplateEngine.TCall)
      (e : TemplateEngine.EngineState) (a b : List Nat),
      (∀ c ∈ ps, TemplateEngine.usesUuid c = false) →
      (TemplateEngine.evalCalls ps e a).1 = (TemplateEngine.evalCalls ps e b).1 ∧
      (TemplateEngine.evalCalls ps e a).2.1 =
        (TemplateEngine.evalCalls ps e b).2.1 from
    hgen prog (TemplateEngine.mkEngine seed) ent1 ent2 h
  intro ps
  induction ps with
  | nil => exact fun e a b _ => ⟨rfl, rfl⟩
  | cons c cs ih =>
      intro e a b hall
      have hc := hall c (by simp)
      have hcs : ∀ x ∈ cs, TemplateEngine.usesUuid x = false :=
        fun x hx => hall x (by simp [hx])
      obtain ⟨hr, he⟩ := evalCall_no_uuid_ent c e a b hc
      have hrest := ih (TemplateEngine.evalCall c e b).2.1
        (TemplateEngine.evalCall c e a).2.2 (TemplateEngine.evalCall c e b).2.2 hcs
      constructor
      · simp only [TemplateEngine.evalCalls]
        rw [hr, he, hrest.1]
      · simp only [TemplateEngine.evalCalls]
        rw [he, hrest.2]

/-- C2 witness: a concrete uuid-free program over a concrete seed
produces identical results under two different entropy streams. -/
theorem c2_witness :
    (TemplateEngine.evalCalls
        [TemplateEngine.TCall.randCall 1 6, TemplateEngine.TCall.fakerFirstName,
         TemplateEngine.TCall.fakerBoolean]
        (TemplateEngine.mkEngine "abc") [5]).1 =
      (TemplateEngine.evalCalls
        [TemplateEngine.TCall.randCall 1 6, TemplateEngine.TCall.fakerFirstName,
         TemplateEngine.TCall.fakerBoolean]
        (TemplateEngine.mkEngine "abc") [9]).1 :=
  (c2_seed_determinism "abc"
    [TemplateEngine.TCall.randCall 1 6, TemplateEngine.TCall.fakerFirstName,
     TemplateEngine.TCall.fakerBoolean] [5] [9] (by decide)).1

/-! ## C3 — the now timestamp seen by templates -/

/-- C3 counterexample: the evaluation context is created afresh inside
every `render`/`evaluate` call with the wall clock read at that moment,
so two renders of the same request at clock times 0 and 1 observe
different `now` values, refuting per-request fixity. -/
theorem c3_counterexample :
    (TemplateEngine.createContext 0 Value.vNull Value.vNull Value.vNull).now ≠
      (TemplateEngine.createContext 1 Value.vNull Value.vNull Value.vNull).now := by
  decide

/-- C3 (amended): `now` is fixed at context creation for the duration of
ONE render (or evaluate) call — a single `render` evaluates every
placeholder against the one context created when it started, whose `now`
is the clock at that moment — but each call creates a fresh context, so
two renders within the same request at different clock times observe
different `now` values. -/
theorem c3_now_per_render (t : Nat) (req session state : Value)
    (ev : String → TemplateEngine.TemplateContext → Except String (Option Value))
    (tpl : String) :
    TemplateEngine.renderAt ev t req session state tpl =
      TemplateEngine.render
        (fun e => ev e (TemplateEngine.createContext t req session state)) tpl ∧
    (TemplateEngine.createContext t req session state).now = t ∧
    (∀ t2 : Nat, t2 ≠ t →
      (TemplateEngine.createContext t2 req session state).now ≠
        (TemplateEngine.createContext t req session state).now) := by
  refine ⟨rfl, rfl, ?_⟩
  intro t2 h
  simpa [TemplateEngine.createContext] using h

/-- C3 witness: two renders of one request at clock times 3 and 5 see
different timestamps. -/
theorem c3_witness :
    (TemplateEngine.createContext 3 Value.vNull Value.vNull Value.vNull).now ≠
      (TemplateEngine.createContext 5 Value.vNull Value.vNull Value.vNull).now :=
  (c3_now_per_render 5 Value.vNull Value.vNull Value.vNull
    (fun _ _ => Except.ok none) "").2.2 3 (by decide)
